import Mathlib

/-!
Verification of the per-frame scene-preparation engine of the Qt Quick 3D
layer renderer (`QSSGLayerRenderData`, file
`src/runtimerender/rendererimpl/qssglayerrenderdata.cpp`).

The definitions below are shallow embeddings of the corresponding C++
functions; float arithmetic is modelled over `ℚ` (all the code paths we
verify only multiply, divide and compare, so exact rationals are a faithful
model of the comparisons involved).
-/

namespace QSSG

/-! ## Renderable classification buckets

Embeds the bucket-push logic at the end of
`QSSGLayerRenderData::prepareModelForRender` (qssglayerrenderdata.cpp,
lines 1401-1407) and `prepareParticlesForRender` (lines 1490-1496):

    if (theRenderableObject->renderableFlags.requiresScreenTexture())
        screenTextureObjects.push_back(...);
    else if (theRenderableObject->renderableFlags.hasTransparency())
        transparentObjects.push_back(...);
    else
        opaqueObjects.push_back(...);
-/

/-- The per-frame renderable record, reduced to the flags consulted by the
bucket classification (plus a tag so that distinct records stay
distinguishable). -/
structure RObj where
  requiresScreenTexture : Bool
  hasTransparency : Bool
  tag : Nat
  deriving DecidableEq, Repr

/-- The three classification buckets owned by the layer. -/
structure Buckets where
  screenTextureObjects : List RObj
  transparentObjects : List RObj
  opaqueObjects : List RObj
  deriving DecidableEq, Repr

/-- One `push_back` step of the classification chain
(qssglayerrenderdata.cpp:1401-1407 / 1490-1496). -/
def pushRenderable (b : Buckets) (o : RObj) : Buckets :=
  if o.requiresScreenTexture then
    { b with screenTextureObjects := b.screenTextureObjects ++ [o] }
  else if o.hasTransparency then
    { b with transparentObjects := b.transparentObjects ++ [o] }
  else
    { b with opaqueObjects := b.opaqueObjects ++ [o] }

/-- Classification of all renderables produced in one frame, starting from
the empty buckets left by `resetForFrame`. -/
def classifyRenderables (objs : List RObj) : Buckets :=
  objs.foldl pushRenderable ⟨[], [], []⟩

/-- Predicate for the screen-texture bucket. -/
def inScreenBucket (o : RObj) : Bool := o.requiresScreenTexture

/-- Predicate for the transparent bucket. -/
def inTransparentBucket (o : RObj) : Bool := !o.requiresScreenTexture && o.hasTransparency

/-- Predicate for the opaque bucket. -/
def inOpaqueBucket (o : RObj) : Bool := !o.requiresScreenTexture && !o.hasTransparency

theorem classify_fold_screen (objs : List RObj) (b : Buckets) :
    (objs.foldl pushRenderable b).screenTextureObjects
      = b.screenTextureObjects ++ objs.filter inScreenBucket := by
  induction objs generalizing b with
  | nil => simp
  | cons o rest ih =>
    simp only [List.foldl_cons, ih, pushRenderable, inScreenBucket, List.filter_cons]
    by_cases h1 : o.requiresScreenTexture = true
    · simp [h1]
    · by_cases h2 : o.hasTransparency = true <;> simp [h1, h2]

theorem classify_fold_transparent (objs : List RObj) (b : Buckets) :
    (objs.foldl pushRenderable b).transparentObjects
      = b.transparentObjects ++ objs.filter inTransparentBucket := by
  induction objs generalizing b with
  | nil => simp
  | cons o rest ih =>
    simp only [List.foldl_cons, ih, pushRenderable, inTransparentBucket, List.filter_cons]
    by_cases h1 : o.requiresScreenTexture = true
    · simp [h1]
    · by_cases h2 : o.hasTransparency = true <;> simp [h1, h2]

theorem classify_fold_opaque (objs : List RObj) (b : Buckets) :
    (objs.foldl pushRenderable b).opaqueObjects
      = b.opaqueObjects ++ objs.filter inOpaqueBucket := by
  induction objs generalizing b with
  | nil => simp
  | cons o rest ih =>
    simp only [List.foldl_cons, ih, pushRenderable, inOpaqueBucket, List.filter_cons]
    by_cases h1 : o.requiresScreenTexture = true
    · simp [h1]
    · by_cases h2 : o.hasTransparency = true <;> simp [h1, h2]

theorem classify_screen_eq (objs : List RObj) :
    (classifyRenderables objs).screenTextureObjects = objs.filter inScreenBucket := by
  simpa using classify_fold_screen objs ⟨[], [], []⟩

theorem classify_transparent_eq (objs : List RObj) :
    (classifyRenderables objs).transparentObjects = objs.filter inTransparentBucket := by
  simpa using classify_fold_transparent objs ⟨[], [], []⟩

theorem classify_opaque_eq (objs : List RObj) :
    (classifyRenderables objs).opaqueObjects = objs.filter inOpaqueBucket := by
  simpa using classify_fold_opaque objs ⟨[], [], []⟩

/-- **C1.** Every renderable produced by the Model/Particle Preparer lands in
exactly one of the three buckets, chosen by strict precedence
screen-texture > transparency > opaque; the buckets are pairwise disjoint
and their concatenation is a permutation of the produced set (no record
lost, none duplicated). -/
theorem renderable_buckets_partition (objs : List RObj) :
    let b := classifyRenderables objs
    (∀ o, o ∈ b.screenTextureObjects ↔ o ∈ objs ∧ o.requiresScreenTexture = true)
    ∧ (∀ o, o ∈ b.transparentObjects ↔
        o ∈ objs ∧ o.requiresScreenTexture = false ∧ o.hasTransparency = true)
    ∧ (∀ o, o ∈ b.opaqueObjects ↔
        o ∈ objs ∧ o.requiresScreenTexture = false ∧ o.hasTransparency = false)
    ∧ (∀ o, o ∈ b.screenTextureObjects → o ∉ b.transparentObjects ∧ o ∉ b.opaqueObjects)
    ∧ (∀ o, o ∈ b.transparentObjects → o ∉ b.opaqueObjects)
    ∧ (b.screenTextureObjects ++ b.transparentObjects ++ b.opaqueObjects).Perm objs := by
  intro b
  have hs := classify_screen_eq objs
  have ht := classify_transparent_eq objs
  have ho := classify_opaque_eq objs
  have mem_s : ∀ o, o ∈ b.screenTextureObjects ↔ o ∈ objs ∧ o.requiresScreenTexture = true := by
    intro o
    rw [show b.screenTextureObjects = objs.filter inScreenBucket from hs]
    simp [List.mem_filter, inScreenBucket]
  have mem_t : ∀ o, o ∈ b.transparentObjects ↔
      o ∈ objs ∧ o.requiresScreenTexture = false ∧ o.hasTransparency = true := by
    intro o
    rw [show b.transparentObjects = objs.filter inTransparentBucket from ht]
    simp [List.mem_filter, inTransparentBucket]
  have mem_o : ∀ o, o ∈ b.opaqueObjects ↔
      o ∈ objs ∧ o.requiresScreenTexture = false ∧ o.hasTransparency = false := by
    intro o
    rw [show b.opaqueObjects = objs.filter inOpaqueBucket from ho]
    simp [List.mem_filter, inOpaqueBucket]
  refine ⟨mem_s, mem_t, mem_o, ?_, ?_, ?_⟩
  · intro o hmem
    have h1 := (mem_s o).mp hmem
    constructor
    · intro hc
      have h2 := (mem_t o).mp hc
      rw [h1.2] at h2
      exact absurd h2.2.1 (by simp)
    · intro hc
      have h2 := (mem_o o).mp hc
      rw [h1.2] at h2
      exact absurd h2.2.1 (by simp)
  · intro o hmem hc
    have h1 := (mem_t o).mp hmem
    have h2 := (mem_o o).mp hc
    rw [h1.2.2] at h2
    exact absurd h2.2.2 (by simp)
  · rw [show b.screenTextureObjects = objs.filter inScreenBucket from hs,
        show b.transparentObjects = objs.filter inTransparentBucket from ht,
        show b.opaqueObjects = objs.filter inOpaqueBucket from ho]
    have h1 : (objs.filter (fun o => !inScreenBucket o)).filter inTransparentBucket
        = objs.filter inTransparentBucket := by
      rw [List.filter_filter]
      apply List.filter_congr
      intro o _
      simp only [inScreenBucket, inTransparentBucket]
      rcases o.requiresScreenTexture with _ | _ <;> simp
    have h2 : (objs.filter (fun o => !inScreenBucket o)).filter (fun o => !inTransparentBucket o)
        = objs.filter inOpaqueBucket := by
      rw [List.filter_filter]
      apply List.filter_congr
      intro o _
      simp only [inScreenBucket, inTransparentBucket, inOpaqueBucket]
      rcases o.requiresScreenTexture with _ | _ <;>
        rcases o.hasTransparency with _ | _ <;> simp
    have key : (objs.filter inTransparentBucket ++ objs.filter inOpaqueBucket).Perm
        (objs.filter (fun o => !inScreenBucket o)) := by
      rw [← h1, ← h2]
      exact List.filter_append_perm _ _
    rw [List.append_assoc]
    exact (key.append_left _).trans (List.filter_append_perm _ _)

/-! ## Subset-opacity clamping

Embeds the opacity epsilon handling shared by
`QSSGLayerRenderData::prepareDefaultMaterialForRender`
(qssglayerrenderdata.cpp:794-806) and
`QSSGLayerRenderData::prepareCustomMaterialForRender` (lines 836-848):

    if (subsetOpacity < QSSG_RENDER_MINIMUM_RENDER_OPACITY) {
        subsetOpacity = 0.0f;
        renderableFlags |= QSSGRenderableObjectFlag::HasTransparency;
        renderableFlags |= QSSGRenderableObjectFlag::CompletelyTransparent;
    }
    if (subsetOpacity > 1.f - QSSG_RENDER_MINIMUM_RENDER_OPACITY)
        subsetOpacity = 1.f;
    else
        renderableFlags |= QSSGRenderableObjectFlag::HasTransparency;

The constant `QSSG_RENDER_MINIMUM_RENDER_OPACITY` is defined in a header
outside this repository snapshot, so the clamp is parameterised by the
epsilon `eps`. -/

/-- Result of the opacity clamp: the (possibly snapped) opacity together with
the two transparency flags of the renderable record. -/
structure OpacityResult where
  opacity : ℚ
  hasTransparency : Bool
  completelyTransparent : Bool
  deriving DecidableEq, Repr

/-- The two successive `if` statements of the material preparation functions
(qssglayerrenderdata.cpp:794-806 / 836-848), acting on the subset opacity and
the `HasTransparency` / `CompletelyTransparent` renderable flags. -/
def clampSubsetOpacity (eps inOpacity : ℚ) (inHasTransparency inCompletelyTransparent : Bool) :
    OpacityResult :=
  let o1 := if inOpacity < eps then (0 : ℚ) else inOpacity
  let ht1 := if inOpacity < eps then true else inHasTransparency
  let ct1 := if inOpacity < eps then true else inCompletelyTransparent
  if o1 > 1 - eps then ⟨1, ht1, ct1⟩ else ⟨o1, true, ct1⟩

/-- **C2 counterexample.** The code compares with strict `<` and `>`, so an
opacity exactly equal to the epsilon is neither forced to `0` nor flagged
`CompletelyTransparent` (contradicting "at or below"), and an opacity exactly
equal to `1 - eps` is not snapped to `1` and does get the transparency flag
(contradicting "at or above"). Shown with `eps = 1/100` (the float constant
`0.01f` is exactly representable, so the boundary inputs are realisable). -/
theorem clampSubsetOpacity_boundary_counterexample :
    (clampSubsetOpacity (1/100) (1/100) false false).opacity = 1/100
    ∧ (clampSubsetOpacity (1/100) (1/100) false false).completelyTransparent = false
    ∧ (clampSubsetOpacity (1/100) (99/100) false false).opacity = 99/100
    ∧ (clampSubsetOpacity (1/100) (99/100) false false).hasTransparency = true := by
  refine ⟨?_, ?_, ?_, ?_⟩ <;> simp [clampSubsetOpacity] <;> norm_num

/-- **C2 (amended).** For `0 < eps ≤ 1/2`: values strictly below `eps` are
forced to exactly `0` and receive both the `HasTransparency` and
`CompletelyTransparent` flags; values strictly above `1 - eps` are snapped to
exactly `1` and the flags are left untouched (in particular the record is not
marked transparent on account of its opacity); values in the closed interval
`[eps, 1 - eps]` keep their value and set the `HasTransparency` flag. -/
theorem clampSubsetOpacity_correct (eps o : ℚ) (ht ct : Bool)
    (heps0 : 0 < eps) (heps2 : eps ≤ 1/2) :
    (o < eps → clampSubsetOpacity eps o ht ct = ⟨0, true, true⟩)
    ∧ (1 - eps < o → clampSubsetOpacity eps o ht ct = ⟨1, ht, ct⟩)
    ∧ (eps ≤ o → o ≤ 1 - eps → clampSubsetOpacity eps o ht ct = ⟨o, true, ct⟩) := by
  refine ⟨?_, ?_, ?_⟩
  · intro h
    have h1 : ¬ ((0 : ℚ) > 1 - eps) := by linarith
    simp [clampSubsetOpacity, h, h1]
  · intro h
    have hno : ¬ (o < eps) := by linarith
    have h1 : o > 1 - eps := h
    simp [clampSubsetOpacity, hno, h1]
  · intro hlo hhi
    have hno : ¬ (o < eps) := by linarith
    have h1 : ¬ (o > 1 - eps) := by linarith
    simp [clampSubsetOpacity, hno, h1]

/-- Witness for `clampSubsetOpacity_correct`, at `eps = 1/100`, `o = 1/200`. -/
theorem clampSubsetOpacity_correct_witness :
    clampSubsetOpacity (1/100) (1/200) false false = ⟨0, true, true⟩ :=
  (clampSubsetOpacity_correct (1/100) (1/200) false false
    (by norm_num) (by norm_num)).1 (by norm_num)

/-! ## Level-of-detail selection

Embeds the LOD block of `QSSGLayerRenderData::prepareModelForRender`
(qssglayerrenderdata.cpp:1113-1166):

    quint32 subsetLevelOfDetail = 0;
    if (!theSubset.lods.isEmpty() && lodThreshold > 0.0f) {
        ...
        int currentLod = -1;
        if (model.levelOfDetailBias > 0.0f) {
            const float threshold = distanceThreshold * lodDistanceMultiplier;
            const float modelBias = 1 / model.levelOfDetailBias;
            for (qsizetype i = 0; i < theSubset.lods.count(); ++i) {
                float subsetDistance = theSubset.lods[i].distance * modelScale * modelBias;
                float screenSize = subsetDistance / threshold;
                if (screenSize > lodThreshold)
                    break;
                currentLod = i;
            }
        }
        if (currentLod == -1)
            subsetLevelOfDetail = 0;
        else
            subsetLevelOfDetail = currentLod + 1;
    }

`lods` is the list of per-level distances `theSubset.lods[i].distance`. -/

/-- The `for` loop over the LOD levels: `cur` is `currentLod`, `i` the loop
index; the loop breaks at the first level whose screen size exceeds the
pixel-error threshold. -/
def lodLoopGo (lodThreshold threshold msb : ℚ) : List ℚ → Nat → Int → Int
  | [], _, cur => cur
  | d :: rest, i, cur =>
    if d * msb / threshold > lodThreshold then cur
    else lodLoopGo lodThreshold threshold msb rest (i + 1) (Int.ofNat i)

/-- LOD index selection for one subset (qssglayerrenderdata.cpp:1113-1166).
`msb` in the loop is `modelScale * (1 / levelOfDetailBias)`. -/
def subsetLevelOfDetail (lods : List ℚ)
    (lodThreshold lodDistanceMultiplier distanceThreshold modelScale levelOfDetailBias : ℚ) :
    ℕ :=
  if lods = [] ∨ ¬ lodThreshold > 0 then 0
  else
    let currentLod : Int :=
      if levelOfDetailBias > 0 then
        lodLoopGo lodThreshold (distanceThreshold * lodDistanceMultiplier)
          (modelScale * (1 / levelOfDetailBias)) lods 0 (-1)
      else -1
    if currentLod = -1 then 0 else currentLod.toNat + 1

/-- The LOD rule as the spec sentence states it: a level is accepted exactly
when `levelDistance * modelUniformScale / levelOfDetailBias` divided by
`distanceThreshold * cameraLodMultiplier` stays ABOVE the pixel-error
threshold; the last accepted level wins; index 0 if none qualifies or LOD is
disabled. (Written from the spec's words, for comparison with
`subsetLevelOfDetail` which is written from the source.) -/
def subsetLevelOfDetailSpec (lods : List ℚ)
    (lodThreshold lodDistanceMultiplier distanceThreshold modelScale levelOfDetailBias : ℚ) :
    ℕ :=
  if lods = [] ∨ ¬ lodThreshold > 0 ∨ ¬ levelOfDetailBias > 0 then 0
  else
    let accepted := (List.range lods.length).filter
      (fun i => decide ((lods.getD i 0) * modelScale * (1 / levelOfDetailBias)
        / (distanceThreshold * lodDistanceMultiplier) > lodThreshold))
    match accepted.getLast? with
    | none => 0
    | some i => i + 1

/-- **C3 counterexample.** One LOD level whose screen-size ratio exceeds the
pixel-error threshold: the code rejects it and keeps the finest level (0),
while the claim's "accepted when the ratio stays above the threshold" rule
accepts it and selects the coarser level. Inputs: `lods = [1]`, threshold
`1/2`, all other factors `1`. -/
theorem subsetLevelOfDetail_direction_counterexample :
    subsetLevelOfDetail [1] (1/2) 1 1 1 1 = 0
    ∧ subsetLevelOfDetailSpec [1] (1/2) 1 1 1 1 = 1 := by
  constructor
  · simp [subsetLevelOfDetail, lodLoopGo]
    norm_num
  · have hg : ¬ (([(1:ℚ)] = []) ∨ ¬ (1:ℚ)/2 > 0 ∨ ¬ (1:ℚ) > 0) := by norm_num
    simp only [subsetLevelOfDetailSpec]
    rw [if_neg hg]
    have hr : List.range (List.length [(1:ℚ)]) = [0] := by rfl
    simp only [hr, List.filter]
    norm_num

/-- Whether the code accepts a LOD level distance `d`: its screen-size ratio
stays at or below the pixel-error threshold. -/
def lodLevelOk (lodThreshold threshold msb d : ℚ) : Bool :=
  !(d * msb / threshold > lodThreshold)

theorem lodLoopGo_takeWhile (lodThreshold threshold msb : ℚ) (lods : List ℚ) (i : Nat) :
    lodLoopGo lodThreshold threshold msb lods i (Int.ofNat i - 1)
      = Int.ofNat (i + (lods.takeWhile (lodLevelOk lodThreshold threshold msb)).length) - 1 := by
  induction lods generalizing i with
  | nil => simp [lodLoopGo]
  | cons d rest ih =>
    by_cases h : d * msb / threshold > lodThreshold
    · simp [lodLoopGo, h, List.takeWhile_cons, lodLevelOk]
    · have h2 : lodLevelOk lodThreshold threshold msb d = true := by
        simp [lodLevelOk, h]
      have hun : lodLoopGo lodThreshold threshold msb (d :: rest) i (Int.ofNat i - 1)
          = lodLoopGo lodThreshold threshold msb rest (i + 1) (Int.ofNat i) := by
        simp [lodLoopGo, h]
      rw [List.takeWhile_cons, h2, if_pos rfl, hun]
      have hstep : (Int.ofNat i) = Int.ofNat (i + 1) - 1 := by
        simp [Int.ofNat_succ]
      rw [hstep, ih (i + 1)]
      simp only [List.length_cons, Int.ofNat_eq_coe]
      omega

/-- **C3 (amended).** LOD selection: levels are tested in increasing index
order and a level is accepted exactly when its ratio stays AT OR BELOW the
pixel-error threshold, testing stopping at the first level that exceeds it;
the selected LOD index is the number of levels in that accepted prefix (the
last accepted level wins, `+1` because index 0 is the unreduced mesh), and
index 0 is selected if no level qualifies or LOD is disabled (empty level
list, non-positive pixel-error threshold, or non-positive bias). -/
theorem subsetLevelOfDetail_correct (lods : List ℚ)
    (lodThreshold mult distThr scale bias : ℚ) :
    (lods ≠ [] → 0 < lodThreshold → 0 < bias →
      subsetLevelOfDetail lods lodThreshold mult distThr scale bias
        = (lods.takeWhile
            (lodLevelOk lodThreshold (distThr * mult) (scale * (1 / bias)))).length)
    ∧ (lods = [] ∨ lodThreshold ≤ 0 ∨ bias ≤ 0 →
      subsetLevelOfDetail lods lodThreshold mult distThr scale bias = 0) := by
  constructor
  · intro hne hthr hbias
    have hloop := lodLoopGo_takeWhile lodThreshold (distThr * mult) (scale * (1 / bias)) lods 0
    simp only [Int.ofNat_zero, zero_add] at hloop
    have hguard : ¬ (lods = [] ∨ ¬ lodThreshold > 0) := by
      push_neg
      exact ⟨hne, hthr⟩
    simp only [subsetLevelOfDetail, if_neg hguard, if_pos hbias]
    have hm1 : (Int.ofNat 0 - 1 : Int) = -1 := by norm_num
    rw [hm1] at hloop
    rw [hloop]
    simp only [Int.ofNat_eq_coe]
    split <;> omega
  · intro h
    rcases h with h | h | h
    · simp [subsetLevelOfDetail, h]
    · have : ¬ lodThreshold > 0 := by linarith
      simp [subsetLevelOfDetail, this]
    · by_cases hg : lods = [] ∨ ¬ lodThreshold > 0
      · simp only [subsetLevelOfDetail]
        rw [if_pos hg]
      · have hb : ¬ bias > 0 := by linarith
        simp only [subsetLevelOfDetail]
        rw [if_neg hg]
        simp [hb]

/-- Witness for `subsetLevelOfDetail_correct`: two levels, the first accepted
(ratio `1/4 ≤ 1/2`), the second rejected (ratio `1 > 1/2`), so LOD index 1 is
selected. -/
theorem subsetLevelOfDetail_correct_witness :
    subsetLevelOfDetail [(1/4), 1] (1/2) 1 1 1 1 = 1 := by
  have h := (subsetLevelOfDetail_correct [(1/4), 1] (1/2) 1 1 1 1).1
    (by simp) (by norm_num) (by norm_num)
  rw [h]
  simp [List.takeWhile, lodLevelOk]
  norm_num

/-! ## Light and shadow budgets

Embeds the light-selection block of
`QSSGLayerRenderData::prepareForRender` (qssglayerrenderdata.cpp:1845-1873):

    const int maxLightCount = effectiveMaxLightCount(features);
    ...
    auto it = lights.crbegin();
    const auto end = it + qMin(maxLightCount, lights.size());
    for (; it != end; ++it) {
        QSSGRenderLight *renderLight = (*it);
        ...
        const bool mightCastShadows = renderLight->m_castShadow && !renderLight->m_fullyBaked;
        const bool shadows = mightCastShadows && (shadowMapCount < QSSG_MAX_NUM_SHADOW_MAPS);
        shadowMapCount += int(shadows);
        ...
        renderableLights.push_back(QSSGShaderLight{ renderLight, shadows, direction });
    }

The numeric budgets `QSSG_MAX_NUM_LIGHTS`, `QSSG_REDUCED_MAX_NUM_LIGHTS` and
`QSSG_MAX_NUM_SHADOW_MAPS` come from headers outside this repository
snapshot, so they are parameters here. -/

/-- A classified light, reduced to the fields the budget allocator reads. -/
structure RLight where
  castShadow : Bool
  fullyBaked : Bool
  lightId : Nat
  deriving DecidableEq, Repr

/-- A per-frame shader light entry: the light plus its resolved
shadow-eligibility flag. -/
structure ShaderLight where
  light : RLight
  shadows : Bool
  deriving DecidableEq, Repr

/-- `effectiveMaxLightCount` (qssglayerrenderdata.cpp:1601-1607): picks one of
the two budgets depending on the reduce-max-lights feature flag. -/
def effectiveMaxLightCount (reduceMaxNumLights : Bool) (maxNumLights reducedMaxNumLights : ℕ) :
    ℕ :=
  if reduceMaxNumLights then reducedMaxNumLights else maxNumLights

/-- Shadow eligibility: `m_castShadow && !m_fullyBaked`
(qssglayerrenderdata.cpp:1862). -/
def lightIsShadowEligible (l : RLight) : Bool :=
  l.castShadow && !l.fullyBaked

/-- The body of the selection loop (qssglayerrenderdata.cpp:1859-1867),
threading `shadowMapCount` as `count`. -/
def buildRenderableLights (shadowBudget : ℕ) (count : ℕ) : List RLight → List ShaderLight
  | [] => []
  | l :: rest =>
    let mightCastShadows := l.castShadow && !l.fullyBaked
    let shadows := mightCastShadows && decide (count < shadowBudget)
    ⟨l, shadows⟩ :: buildRenderableLights shadowBudget (count + (if shadows then 1 else 0)) rest

/-- The full light selection (qssglayerrenderdata.cpp:1852-1867): iterate the
classified light list in reverse order, up to `qMin(maxLightCount, size)`
entries, allocating shadow-map slots on the way. -/
def selectFrameLights (maxLightCount shadowBudget : ℕ) (lights : List RLight) :
    List ShaderLight :=
  buildRenderableLights shadowBudget 0 (lights.reverse.take (min maxLightCount lights.length))

theorem buildRenderableLights_length (shadowBudget count : ℕ) (ls : List RLight) :
    (buildRenderableLights shadowBudget count ls).length = ls.length := by
  induction ls generalizing count with
  | nil => rfl
  | cons l rest ih => simp [buildRenderableLights, ih]

theorem buildRenderableLights_map_light (shadowBudget count : ℕ) (ls : List RLight) :
    (buildRenderableLights shadowBudget count ls).map ShaderLight.light = ls := by
  induction ls generalizing count with
  | nil => rfl
  | cons l rest ih => simp [buildRenderableLights, ih]

theorem buildRenderableLights_shadows (shadowBudget : ℕ) (ls : List RLight) (count : ℕ)
    (i : ℕ) (h : i < (buildRenderableLights shadowBudget count ls).length) :
    ((buildRenderableLights shadowBudget count ls).get ⟨i, h⟩).shadows
      = (lightIsShadowEligible (ls.get ⟨i, by
          simpa [buildRenderableLights_length] using h⟩)
        && decide (count + (ls.take i).countP lightIsShadowEligible < shadowBudget)) := by
  induction ls generalizing count i with
  | nil => simp [buildRenderableLights] at h
  | cons l rest ih =>
    cases i with
    | zero =>
      simp [buildRenderableLights, lightIsShadowEligible]
    | succ n =>
      have hn : n < (buildRenderableLights shadowBudget
          (count + (if (l.castShadow && !l.fullyBaked) && decide (count < shadowBudget)
            then 1 else 0)) rest).length := by
        have hlen := h
        simp only [buildRenderableLights_length, List.length_cons] at hlen
        simpa [buildRenderableLights_length] using Nat.lt_of_succ_lt_succ hlen
      have hrec := ih (count + (if (l.castShadow && !l.fullyBaked) && decide (count < shadowBudget)
          then 1 else 0)) n hn
      have hget : (buildRenderableLights shadowBudget count (l :: rest)).get ⟨n + 1, h⟩
          = (buildRenderableLights shadowBudget
              (count + (if (l.castShadow && !l.fullyBaked) && decide (count < shadowBudget)
                then 1 else 0)) rest).get ⟨n, hn⟩ := rfl
      rw [hget, hrec]
      have harith : ((count + (if (l.castShadow && !l.fullyBaked) && decide (count < shadowBudget)
            then 1 else 0)) + (rest.take n).countP lightIsShadowEligible < shadowBudget)
          ↔ (count + ((l :: rest).take (n + 1)).countP lightIsShadowEligible < shadowBudget) := by
        have hle : lightIsShadowEligible l = (l.castShadow && !l.fullyBaked) := rfl
        simp only [List.take_succ_cons, List.countP_cons, hle]
        by_cases he : (l.castShadow && !l.fullyBaked) = true
        · by_cases hc : count < shadowBudget <;> simp [he, hc] <;> omega
        · have he0 : (l.castShadow && !l.fullyBaked) = false := by simpa using he
          simp [he0]
      rw [decide_eq_decide.mpr harith]
      rfl

/-- **C4.** From a classified light list of size `N`, exactly
`min(N, L_max)` lights are selected (`L_max` being one of the two fixed
budgets picked by the reduce-max-lights feature flag), in reverse traversal
order so the most-recently-classified lights win; a selected light at
position `i` is flagged shadow-casting exactly when it is shadow-eligible
(`castShadow` and not fully baked) and fewer than `S_max` eligible lights
precede it in selection order. -/
theorem light_budget_allocation (maxLightCount shadowBudget : ℕ) (lights : List RLight)
    (reduceFlag : Bool) (maxN redN : ℕ) :
    (effectiveMaxLightCount reduceFlag maxN redN = if reduceFlag then redN else maxN)
    ∧ (selectFrameLights maxLightCount shadowBudget lights).length
        = min maxLightCount lights.length
    ∧ (selectFrameLights maxLightCount shadowBudget lights).map ShaderLight.light
        = lights.reverse.take maxLightCount
    ∧ ∀ i (h : i < (selectFrameLights maxLightCount shadowBudget lights).length),
        ((selectFrameLights maxLightCount shadowBudget lights).get ⟨i, h⟩).shadows
          = (lightIsShadowEligible
              ((lights.reverse.take (min maxLightCount lights.length)).get ⟨i, by
                simpa [selectFrameLights, buildRenderableLights_length] using h⟩)
            && decide (((lights.reverse.take (min maxLightCount lights.length)).take i).countP
                lightIsShadowEligible < shadowBudget)) := by
  refine ⟨rfl, ?_, ?_, ?_⟩
  · simp [selectFrameLights, buildRenderableLights_length]
  · rw [selectFrameLights, buildRenderableLights_map_light]
    have h1 : min maxLightCount lights.length = min maxLightCount lights.reverse.length := by
      simp
    rw [h1, ← List.take_take, List.take_length]
  · intro i h
    simpa using buildRenderableLights_shadows shadowBudget
      (lights.reverse.take (min maxLightCount lights.length)) 0 i
      (by simpa [selectFrameLights] using h)

/-- Witness for `light_budget_allocation`: three lights, budget `L_max = 2`,
`S_max = 1`; the two most-recently-classified lights are selected and only
the first eligible one gets a shadow map. -/
theorem light_budget_allocation_witness :
    ((selectFrameLights 2 1 [⟨false, false, 0⟩, ⟨true, false, 1⟩, ⟨true, false, 2⟩]).get
      ⟨0, by simp [selectFrameLights, buildRenderableLights_length]⟩).shadows = true
    ∧ ((selectFrameLights 2 1 [⟨false, false, 0⟩, ⟨true, false, 1⟩, ⟨true, false, 2⟩]).get
      ⟨1, by simp [selectFrameLights, buildRenderableLights_length]⟩).shadows = false := by
  constructor
  · rw [(light_budget_allocation 2 1 [⟨false, false, 0⟩, ⟨true, false, 1⟩, ⟨true, false, 2⟩]
      false 0 0).2.2.2 0 (by simp [selectFrameLights, buildRenderableLights_length])]
    rfl
  · rw [(light_budget_allocation 2 1 [⟨false, false, 0⟩, ⟨true, false, 1⟩, ⟨true, false, 2⟩]
      false 0 0).2.2.2 1 (by simp [selectFrameLights, buildRenderableLights_length])]
    rfl

/-! ## Camera resolution

Embeds the camera-selection block of
`QSSGLayerRenderData::prepareForRender` (qssglayerrenderdata.cpp:1800-1831).
A camera is modelled by its activity flag as observed AFTER
`setupCameraForRender` recomputed its global variables (the recomputation
itself is an external collaborator; only the resulting flag is read by the
selection logic). -/

/-- A classified camera: `active` is `getGlobalState(GlobalState::Active)`
after `setupCameraForRender`. -/
structure RCamera where
  active : Bool
  camId : Nat
  deriving DecidableEq, Repr

/-- The implicit-search loop (qssglayerrenderdata.cpp:1818-1829): iterate the
classified camera list while no camera has been selected, selecting the
first active one. -/
def findFirstActiveCamera : List RCamera → Option RCamera
  | [] => none
  | c :: rest => if c.active then some c else findFirstActiveCamera rest

/-- Camera resolution (qssglayerrenderdata.cpp:1804-1831): an explicit camera
is used iff it is active after recomputation, with no fallback; otherwise the
first active classified camera is selected. -/
def resolveRenderCamera (explicitCamera : Option RCamera) (cameras : List RCamera) :
    Option RCamera :=
  match explicitCamera with
  | some c => if c.active then some c else none
  | none => findFirstActiveCamera cameras

theorem findFirstActiveCamera_eq_find (cameras : List RCamera) :
    findFirstActiveCamera cameras = cameras.find? RCamera.active := by
  induction cameras with
  | nil => rfl
  | cons c rest ih =>
    by_cases h : c.active = true
    · simp [findFirstActiveCamera, List.find?_cons, h]
    · simp only [Bool.not_eq_true] at h
      simp [findFirstActiveCamera, List.find?_cons, h, ih]

/-- **C5.** If an explicit camera override is set it is selected iff it is
active after recomputation, and when it is inactive no camera is selected at
all (no fallback to the classified list, even when that list contains active
cameras); with no explicit camera, the first active camera of the classified
list in traversal order is selected (`List.find?` of the activity flag). -/
theorem camera_resolution (cameras : List RCamera) (c : RCamera) :
    (c.active = true → resolveRenderCamera (some c) cameras = some c)
    ∧ (c.active = false → resolveRenderCamera (some c) cameras = none)
    ∧ resolveRenderCamera none cameras = cameras.find? RCamera.active := by
  refine ⟨?_, ?_, ?_⟩
  · intro h
    simp [resolveRenderCamera, h]
  · intro h
    simp [resolveRenderCamera, h]
  · simpa [resolveRenderCamera] using findFirstActiveCamera_eq_find cameras

/-- Witness for `camera_resolution`: an inactive explicit camera yields no
camera even though the classified list contains an active one. -/
theorem camera_resolution_witness :
    resolveRenderCamera (some ⟨false, 0⟩) [⟨true, 1⟩] = none :=
  (camera_resolution [⟨true, 1⟩] ⟨false, 0⟩).2.1 rfl

/-! ## Pass scheduling

Embeds the pass-list construction at the end of
`QSSGLayerRenderData::prepareForRender` (qssglayerrenderdata.cpp:2028-2051):

    if (thePrepResult.flags.requiresDepthTexture())
        activePasses.push_back(&depthMapPass);
    if (thePrepResult.flags.requiresSsaoPass())
        activePasses.push_back(&ssaoMapPass);
    if (thePrepResult.flags.requiresShadowMapPass())
        activePasses.push_back(&shadowMapPass);
    activePasses.push_back(&reflectionMapPass);
    activePasses.push_back(&zPrePassPass);
    if (thePrepResult.flags.requiresScreenTexture())
        activePasses.push_back(&screenMapPass);
    activePasses.push_back(&mainPass);
-/

/-- The opaque pass identifiers pushed into `activePasses`. -/
inductive RenderPass
  | depthMapPass
  | ssaoMapPass
  | shadowMapPass
  | reflectionMapPass
  | zPrePassPass
  | screenMapPass
  | mainPass
  deriving DecidableEq, Repr

/-- The pass-requirement flags of `QSSGLayerRenderPreparationResult`
consulted by the scheduler. -/
structure PrepFlags where
  requiresDepthTexture : Bool
  requiresSsaoPass : Bool
  requiresShadowMapPass : Bool
  requiresScreenTexture : Bool
  deriving DecidableEq, Repr

/-- The `activePasses` construction (qssglayerrenderdata.cpp:2028-2051),
starting from the empty list asserted by `QSSG_ASSERT(activePasses.isEmpty())`. -/
def buildActivePasses (f : PrepFlags) : List RenderPass :=
  (if f.requiresDepthTexture then [RenderPass.depthMapPass] else [])
  ++ (if f.requiresSsaoPass then [RenderPass.ssaoMapPass] else [])
  ++ (if f.requiresShadowMapPass then [RenderPass.shadowMapPass] else [])
  ++ [RenderPass.reflectionMapPass, RenderPass.zPrePassPass]
  ++ (if f.requiresScreenTexture then [RenderPass.screenMapPass] else [])
  ++ [RenderPass.mainPass]

/-- **C6.** `activePasses` is a sublist of the fixed full order
depth → ssao → shadow → reflection → z-pre-pass → screen → main (so the
relative order of any two present passes is fixed); each conditional pass is
present iff its flag holds, the reflection-map, z-pre-pass and main passes
are always present, and the main color pass is always last. -/
theorem active_passes_schedule (f : PrepFlags) :
    List.Sublist (buildActivePasses f)
      [RenderPass.depthMapPass, RenderPass.ssaoMapPass, RenderPass.shadowMapPass,
       RenderPass.reflectionMapPass, RenderPass.zPrePassPass, RenderPass.screenMapPass,
       RenderPass.mainPass]
    ∧ (RenderPass.depthMapPass ∈ buildActivePasses f ↔ f.requiresDepthTexture = true)
    ∧ (RenderPass.ssaoMapPass ∈ buildActivePasses f ↔ f.requiresSsaoPass = true)
    ∧ (RenderPass.shadowMapPass ∈ buildActivePasses f ↔ f.requiresShadowMapPass = true)
    ∧ (RenderPass.screenMapPass ∈ buildActivePasses f ↔ f.requiresScreenTexture = true)
    ∧ RenderPass.reflectionMapPass ∈ buildActivePasses f
    ∧ RenderPass.zPrePassPass ∈ buildActivePasses f
    ∧ RenderPass.mainPass ∈ buildActivePasses f
    ∧ (buildActivePasses f).getLast? = some RenderPass.mainPass := by
  obtain ⟨a, b, c, d⟩ := f
  cases a <;> cases b <;> cases c <;> cases d <;> exact ⟨by decide, by decide, by decide,
    by decide, by decide, by decide, by decide, by decide, by decide⟩

/-! ## A sorting routine for the render-list sorters

`std::sort` / `std::stable_sort` with a strict Bool comparator `c` are
modelled by an insertion sort that places each element `x` before the first
element `y` of the already-sorted suffix for which `c y x` is false (i.e. `y`
is not strictly less than `x`). This realises the standard-library contract:
the result is sorted with respect to `c` and, for `std::stable_sort`,
elements that compare equivalent keep their original relative order. -/

/-- Insert `x` into `l`, passing over every element strictly less than `x`
(by the comparator `c`). -/
def insertC (c : α → α → Bool) (x : α) : List α → List α
  | [] => [x]
  | y :: ys => if c y x then y :: insertC c x ys else x :: y :: ys

/-- Stable insertion sort with strict comparator `c`. -/
def stableSortC (c : α → α → Bool) : List α → List α
  | [] => []
  | x :: xs => insertC c x (stableSortC c xs)

theorem insertC_perm (c : α → α → Bool) (x : α) (l : List α) :
    (insertC c x l).Perm (x :: l) := by
  induction l with
  | nil => exact List.Perm.refl _
  | cons y ys ih =>
    by_cases h : c y x = true
    · simp only [insertC, if_pos h]
      exact (ih.cons y).trans (List.Perm.swap x y ys)
    · simp only [Bool.not_eq_true] at h
      simp [insertC, h]

theorem stableSortC_perm (c : α → α → Bool) (l : List α) :
    (stableSortC c l).Perm l := by
  induction l with
  | nil => exact List.Perm.refl _
  | cons x xs ih =>
    exact (insertC_perm c x (stableSortC c xs)).trans (ih.cons x)

theorem filter_insertC_of_neg (c : α → α → Bool) (x : α) (l : List α) (P : α → Bool)
    (hx : P x = false) :
    (insertC c x l).filter P = l.filter P := by
  induction l with
  | nil => simp [insertC, hx]
  | cons y ys ih =>
    by_cases h : c y x = true
    · simp only [insertC, if_pos h, List.filter_cons, ih]
    · simp only [Bool.not_eq_true] at h
      simp [insertC, h, List.filter_cons, hx]

theorem filter_insertC_of_pos (c : α → α → Bool) (x : α) (l : List α) (P : α → Bool)
    (hx : P x = true) (hlt : ∀ y, P y = true → c y x = false) :
    (insertC c x l).filter P = x :: l.filter P := by
  induction l with
  | nil => simp [insertC, hx]
  | cons y ys ih =>
    by_cases h : c y x = true
    · have hy : P y = false := by
        by_contra hy'
        simp only [Bool.not_eq_false] at hy'
        rw [hlt y hy'] at h
        exact absurd h (by simp)
      simp only [insertC, if_pos h, List.filter_cons, hy]
      simpa [hy] using ih
    · simp only [Bool.not_eq_true] at h
      simp [insertC, h, List.filter_cons, hx]

/-- Stability of `stableSortC`, expressed through filtering: if all elements
satisfying `P` are pairwise equivalent for the comparator (`c` never orders
one strictly before another), then the `P`-elements of the sorted list appear
exactly in their original order. -/
theorem filter_stableSortC (c : α → α → Bool) (l : List α) (P : α → Bool)
    (hP : ∀ a b, P a = true → P b = true → c a b = false) :
    (stableSortC c l).filter P = l.filter P := by
  induction l with
  | nil => rfl
  | cons x xs ih =>
    by_cases hx : P x = true
    · rw [stableSortC, filter_insertC_of_pos c x _ P hx (fun y hy => hP y x hy hx),
        ih, List.filter_cons, hx]
      simp
    · simp only [Bool.not_eq_true] at hx
      rw [stableSortC, filter_insertC_of_neg c x _ P hx, ih, List.filter_cons, hx]
      simp

theorem mem_insertC (c : α → α → Bool) (x a : α) (l : List α) :
    a ∈ insertC c x l ↔ a = x ∨ a ∈ l :=
  ⟨fun h => by
    have := (insertC_perm c x l).mem_iff.mp h
    simpa using this,
   fun h => (insertC_perm c x l).symm.mem_iff.mp (by simpa using h)⟩

theorem insertC_sorted_of_key (key : α → ℚ) (x : α) (l : List α)
    (hl : l.Pairwise (fun a b => key a ≤ key b)) :
    (insertC (fun a b => decide (key a < key b)) x l).Pairwise
      (fun a b => key a ≤ key b) := by
  induction l with
  | nil => simp [insertC]
  | cons y ys ih =>
    rcases hl with _ | ⟨hy, hys⟩
    by_cases h : decide (key y < key x) = true
    · simp only [insertC, if_pos h]
      refine List.Pairwise.cons ?_ (ih hys)
      intro a ha
      rcases (mem_insertC _ x a ys).mp ha with rfl | ha
      · exact le_of_lt (of_decide_eq_true h)
      · exact hy a ha
    · have hxy : key x ≤ key y := by
        have h' : ¬ key y < key x := by simpa using h
        linarith
      simp only [insertC, if_neg h]
      refine List.Pairwise.cons ?_ (List.Pairwise.cons hy hys)
      intro a ha
      rcases List.mem_cons.mp ha with rfl | ha
      · exact hxy
      · exact le_trans hxy (hy a ha)

/-- Sortedness of `stableSortC` for a rational-key comparator. -/
theorem stableSortC_sorted_of_key (key : α → ℚ) (l : List α) :
    (stableSortC (fun a b => decide (key a < key b)) l).Pairwise
      (fun a b => key a ≤ key b) := by
  induction l with
  | nil => simp [stableSortC]
  | cons x xs ih => exact insertC_sorted_of_key key x _ ih

/-! ## Sorted opaque renderable accessor

Embeds `QSSGLayerRenderData::getSortedOpaqueRenderableObjects`
(qssglayerrenderdata.cpp:249-264):

    if (!renderedOpaqueObjects.empty() || camera == nullptr)
        return renderedOpaqueObjects;
    if (layer.layerFlags.testFlag(QSSGRenderLayer::LayerFlag::EnableDepthTest)
            && !opaqueObjects.empty()) {
        renderedOpaqueObjects = opaqueObjects;
        ... std::sort by cameraDistanceSq ascending ...
    }
    return renderedOpaqueObjects;

On the first call of a frame the memoization cache `renderedOpaqueObjects`
is empty (cleared by `resetForFrame`), which the embedding assumes. -/

/-- A `QSSGRenderableObjectHandle`: the precomputed squared camera distance
plus a tag distinguishing the underlying object. -/
structure RHandle where
  cameraDistanceSq : ℚ
  htag : Nat
  deriving DecidableEq, Repr

/-- The comparator `isRenderObjectPtrLessThan` (qssglayerrenderdata.cpp:256-258). -/
def isRenderObjectPtrLessThan (lhs rhs : RHandle) : Bool :=
  decide (lhs.cameraDistanceSq < rhs.cameraDistanceSq)

/-- First-per-frame call of `getSortedOpaqueRenderableObjects`
(qssglayerrenderdata.cpp:249-264). `cameraResolved` is `camera != nullptr`,
`depthTestEnabled` is the layer's `EnableDepthTest` flag. The concrete
permutation produced for equal keys is unspecified by `std::sort`; the model
commits to one, and only sortedness and permutation are claimed of it. -/
def getSortedOpaqueRenderableObjects (cameraResolved depthTestEnabled : Bool)
    (opaqueObjects : List RHandle) : List RHandle :=
  if !cameraResolved then []
  else if depthTestEnabled && !opaqueObjects.isEmpty then
    stableSortC isRenderObjectPtrLessThan opaqueObjects
  else []

/-- **C7 counterexample.** With a camera resolved but depth testing disabled
and a non-empty opaque bucket, the accessor returns the untouched (empty)
memoized list, not the unsorted opaque bucket that the claim promises. -/
theorem sorted_opaque_counterexample :
    getSortedOpaqueRenderableObjects true false [⟨0, 0⟩] = []
    ∧ getSortedOpaqueRenderableObjects true false [⟨0, 0⟩] ≠ [⟨0, 0⟩] := by
  constructor
  · rfl
  · intro h
    rw [show getSortedOpaqueRenderableObjects true false [⟨0, 0⟩] = [] from rfl] at h
    exact absurd h (by simp)

/-- **C7 (amended).** When a camera was resolved, depth testing is enabled
and the opaque bucket is non-empty, the accessor returns the opaque bucket
sorted in non-decreasing order of squared camera distance; in every other
case (no camera, depth test disabled, or empty bucket) it returns the empty
list — the untouched per-frame cache — and in particular NOT the unsorted
bucket when that bucket is non-empty. -/
theorem sorted_opaque_accessor (cameraResolved depthTestEnabled : Bool)
    (opaqueObjects : List RHandle) :
    (cameraResolved = true → depthTestEnabled = true → opaqueObjects ≠ [] →
      (getSortedOpaqueRenderableObjects cameraResolved depthTestEnabled opaqueObjects).Perm
          opaqueObjects
      ∧ (getSortedOpaqueRenderableObjects cameraResolved depthTestEnabled
          opaqueObjects).Pairwise
            (fun a b => a.cameraDistanceSq ≤ b.cameraDistanceSq))
    ∧ (cameraResolved = false ∨ depthTestEnabled = false ∨ opaqueObjects = [] →
      getSortedOpaqueRenderableObjects cameraResolved depthTestEnabled opaqueObjects = []) := by
  constructor
  · intro hc hd hne
    have hg : (depthTestEnabled && !opaqueObjects.isEmpty) = true := by
      simp [hd, hne]
    simp only [getSortedOpaqueRenderableObjects, hc, Bool.not_true, Bool.false_eq_true,
      if_false, hg, if_true]
    exact ⟨stableSortC_perm _ _,
      stableSortC_sorted_of_key RHandle.cameraDistanceSq opaqueObjects⟩
  · intro h
    rcases h with h | h | h
    · simp [getSortedOpaqueRenderableObjects, h]
    · simp [getSortedOpaqueRenderableObjects, h]
    · simp [getSortedOpaqueRenderableObjects, h]

/-- Witness for `sorted_opaque_accessor`: a two-element bucket is returned
sorted front-to-back. -/
theorem sorted_opaque_accessor_witness :
    (getSortedOpaqueRenderableObjects true true [⟨2, 0⟩, ⟨1, 1⟩]).Perm [⟨2, 0⟩, ⟨1, 1⟩]
    ∧ (getSortedOpaqueRenderableObjects true true [⟨2, 0⟩, ⟨1, 1⟩]).Pairwise
        (fun a b => a.cameraDistanceSq ≤ b.cameraDistanceSq) :=
  (sorted_opaque_accessor true true [⟨2, 0⟩, ⟨1, 1⟩]).1 rfl rfl (by simp)

/-! ## 2D overlay item ordering

Embeds `QSSGLayerRenderData::getRenderableItem2Ds`
(qssglayerrenderdata.cpp:321-361). An `Item2D` carries a (possibly null)
parent node reference and an authored z-order integer; the camera-relative
depth of a parent node (`dotProduct(parent->getGlobalPos() - cameraPosition,
cameraDirection)`) is abstracted as the function `nodeDepth` on parent node
ids, since only its comparisons are consumed here. Both comparator lambdas
are translated verbatim; the two `std::stable_sort` calls are modelled by the
stable `stableSortC`. -/

/-- A renderable 2D overlay item. -/
structure Item2D where
  parent : Option Nat
  zOrder : Int
  itag : Nat
  deriving DecidableEq, Repr

/-- The comparator `isItemNodeDistanceGreatThan`
(qssglayerrenderdata.cpp:333-342): items whose parents are both non-null are
ordered back-to-front by parent depth; any null parent compares false. -/
def isItemNodeDistanceGreatThan (nodeDepth : Nat → ℚ) (lhs rhs : Item2D) : Bool :=
  match lhs.parent, rhs.parent with
  | some lp, some rp => decide (nodeDepth lp > nodeDepth rp)
  | _, _ => false

/-- The comparator `isItemZOrderLessThan` (qssglayerrenderdata.cpp:344-351):
ascending z-order for items sharing the same non-null parent, false
otherwise. -/
def isItemZOrderLessThan (lhs rhs : Item2D) : Bool :=
  match lhs.parent, rhs.parent with
  | some lp, some rp => if lp = rp then decide (lhs.zOrder < rhs.zOrder) else false
  | _, _ => false

/-- First-per-frame call of `getRenderableItem2Ds`
(qssglayerrenderdata.cpp:321-361): the memoized `renderedItem2Ds` cache is
empty, so with no camera the empty cache is returned, else the classified
item list is sorted by the two successive stable sorts. -/
def getRenderableItem2Ds (cameraResolved : Bool) (nodeDepth : Nat → ℚ)
    (renderableItem2Ds : List Item2D) : List Item2D :=
  if !cameraResolved then []
  else stableSortC isItemZOrderLessThan
    (stableSortC (isItemNodeDistanceGreatThan nodeDepth) renderableItem2Ds)

/-- **C8.** With a camera resolved, `getRenderableItem2Ds` is the two-stage
stable sort (back-to-front by parent depth, then ascending z-order within
equal parents); it permutes the input, and for every parent node `p` and
z-order value `z`, the items with parent `p` and z-order `z` appear in the
result exactly in their authored relative order. -/
theorem item2d_stable_order (nodeDepth : Nat → ℚ) (items : List Item2D)
    (p : Nat) (z : Int) :
    (getRenderableItem2Ds true nodeDepth items).Perm items
    ∧ (getRenderableItem2Ds true nodeDepth items).filter
        (fun it => it.parent == some p && it.zOrder == z)
      = items.filter (fun it => it.parent == some p && it.zOrder == z) := by
  have hdef : getRenderableItem2Ds true nodeDepth items
      = stableSortC isItemZOrderLessThan
          (stableSortC (isItemNodeDistanceGreatThan nodeDepth) items) := rfl
  constructor
  · rw [hdef]
    exact (stableSortC_perm _ _).trans (stableSortC_perm _ _)
  · have hclass2 : ∀ a b : Item2D,
        (a.parent == some p && a.zOrder == z) = true →
        (b.parent == some p && b.zOrder == z) = true →
        isItemZOrderLessThan a b = false := by
      intro a b ha hb
      simp only [Bool.and_eq_true, beq_iff_eq] at ha hb
      simp [isItemZOrderLessThan, ha.1, hb.1, ha.2, hb.2]
    have hclass1 : ∀ a b : Item2D,
        (a.parent == some p && a.zOrder == z) = true →
        (b.parent == some p && b.zOrder == z) = true →
        isItemNodeDistanceGreatThan nodeDepth a b = false := by
      intro a b ha hb
      simp only [Bool.and_eq_true, beq_iff_eq] at ha hb
      simp [isItemNodeDistanceGreatThan, ha.1, hb.1]
    rw [hdef, filter_stableSortC _ _ _ hclass2, filter_stableSortC _ _ _ hclass1]

/-! ## Reflection-probe injection

Embeds `QSSGLayerRenderData::prepareReflectionProbesForRender`
(qssglayerrenderdata.cpp:1533-1586). The geometric tests — transforming the
record's bounds, intersecting against the probe's box, and the distance
between the two box centers — are consumed only through their results, so
they are abstracted as the parameters `intersects i ri` (does probe `i`'s
bound intersect record `ri`'s transformed bound) and `probeDist i ri` (the
distance between the two centers). Records are indexed by their position in
the traversal (the code walks `transparentObjects`, then `opaqueObjects`;
the model walks their concatenation, each record once). -/

/-- The per-record state read and written by the injector: the
reflection-receiver flags and the record's currently assigned nearest probe
(`reflectionProbeIndex == -1` is modelled by `none`). -/
structure ReflRecord where
  receivesReflections : Bool
  isParticle : Bool
  reflectionProbeIndex : Option Nat
  distanceFromReflectionProbe : ℚ
  deriving DecidableEq, Repr

/-- A reflection probe: whether it has an explicit baked texture. -/
structure ReflProbe where
  hasTexture : Bool
  probeTag : Nat
  deriving DecidableEq, Repr

/-- An entry registered with the reflection-map manager: textured
(`addTexturedReflectionMapEntry`) or live (`addReflectionMapEntry`). -/
inductive ReflectionMapEntry
  | textured (probeIdx : Nat)
  | live (probeIdx : Nat)
  deriving DecidableEq, Repr

/-- The `injectProbe` lambda body for one record
(qssglayerrenderdata.cpp:1546-1573): on a receiving, non-particle record
whose bound intersects probe `i`'s bound, (re)assign the record to probe `i`
when it is unassigned or probe `i`'s center is strictly closer; the returned
Bool reports whether `reflectionObjectCount` was incremented. -/
def injectProbeStep (intersects : Nat → Nat → Bool) (probeDist : Nat → Nat → ℚ)
    (i ri : Nat) (r : ReflRecord) : ReflRecord × Bool :=
  if r.receivesReflections && !r.isParticle && intersects i ri then
    match r.reflectionProbeIndex with
    | none =>
      ({ r with reflectionProbeIndex := some i,
                distanceFromReflectionProbe := probeDist i ri }, true)
    | some _ =>
      if probeDist i ri < r.distanceFromReflectionProbe then
        ({ r with reflectionProbeIndex := some i,
                  distanceFromReflectionProbe := probeDist i ri }, true)
      else (r, false)
  else (r, false)

/-- One probe's pass over the record list starting at record index `ri`,
returning the updated records and the pass's `reflectionObjectCount`. -/
def probePassGo (intersects : Nat → Nat → Bool) (probeDist : Nat → Nat → ℚ) (i : Nat) :
    Nat → List ReflRecord → List ReflRecord × Nat
  | _, [] => ([], 0)
  | ri, r :: rest =>
    let step := injectProbeStep intersects probeDist i ri r
    let tail := probePassGo intersects probeDist i (ri + 1) rest
    (step.1 :: tail.1, tail.2 + (if step.2 then 1 else 0))

/-- One probe's full pass (qssglayerrenderdata.cpp:1542-1579). -/
def probePass (intersects : Nat → Nat → Bool) (probeDist : Nat → Nat → ℚ) (i : Nat)
    (records : List ReflRecord) : List ReflRecord × Nat :=
  probePassGo intersects probeDist i 0 records

/-- The registration decision after probe `i`'s pass
(qssglayerrenderdata.cpp:1581-1584): a probe with a texture always registers
a textured entry; a probe without one registers a live entry only when its
pass counted at least one assignment. -/
def probeEntry (p : ReflProbe) (i : Nat) (count : Nat) : List ReflectionMapEntry :=
  if p.hasTexture then [ReflectionMapEntry.textured i]
  else if 0 < count then [ReflectionMapEntry.live i]
  else []

/-- The loop over all probes (qssglayerrenderdata.cpp:1539-1585), threading
the record states and accumulating registered entries. -/
def prepareReflectionProbesGo (intersects : Nat → Nat → Bool)
    (probeDist : Nat → Nat → ℚ) :
    Nat → List ReflProbe → List ReflRecord → List ReflRecord × List ReflectionMapEntry
  | _, [], recs => (recs, [])
  | i, p :: rest, recs =>
    let pass := probePass intersects probeDist i recs
    let tail := prepareReflectionProbesGo intersects probeDist (i + 1) rest pass.1
    (tail.1, probeEntry p i pass.2 ++ tail.2)

/-- `prepareReflectionProbesForRender` (qssglayerrenderdata.cpp:1533-1586). -/
def prepareReflectionProbes (intersects : Nat → Nat → Bool)
    (probeDist : Nat → Nat → ℚ) (probes : List ReflProbe) (records : List ReflRecord) :
    List ReflRecord × List ReflectionMapEntry :=
  prepareReflectionProbesGo intersects probeDist 0 probes records

/-- **C9 counterexample.** Two texture-less probes both intersect one
receiving record; probe 0 is farther (distance 2) than probe 1 (distance 1).
Probe 0's pass assigns the record and registers a live entry, then probe 1
steals the record. At end of frame the record is assigned to probe 1 only,
yet probe 0 did register a live entry — so "a live entry only if at least
one record ends the frame assigned to that probe" is false. -/
theorem reflection_probe_live_counterexample :
    (ReflectionMapEntry.live 0 ∈ (prepareReflectionProbes (fun _ _ => true)
        (fun i _ => if i = 0 then (2 : ℚ) else 1)
        [⟨false, 0⟩, ⟨false, 1⟩] [⟨true, false, none, 0⟩]).2)
    ∧ (∀ r ∈ (prepareReflectionProbes (fun _ _ => true)
        (fun i _ => if i = 0 then (2 : ℚ) else 1)
        [⟨false, 0⟩, ⟨false, 1⟩] [⟨true, false, none, 0⟩]).1,
        r.reflectionProbeIndex ≠ some 0) := by
  have hrun : prepareReflectionProbes (fun _ _ => true)
      (fun i _ => if i = 0 then (2 : ℚ) else 1)
      [⟨false, 0⟩, ⟨false, 1⟩] [⟨true, false, none, 0⟩]
      = ([⟨true, false, some 1, 1⟩],
         [ReflectionMapEntry.live 0, ReflectionMapEntry.live 1]) := by
    have h21 : ¬ ((2 : ℚ) < 2) := by norm_num
    have h12 : (1 : ℚ) < 2 := by norm_num
    simp [prepareReflectionProbes, prepareReflectionProbesGo, probePass, probePassGo,
      injectProbeStep, probeEntry, h21, h12]
  rw [hrun]
  constructor
  · simp
  · intro r hr
    simp only [List.mem_singleton] at hr
    rw [hr]
    simp

theorem probePassGo_length (intersects : Nat → Nat → Bool) (probeDist : Nat → Nat → ℚ)
    (i : Nat) (ri : Nat) (recs : List ReflRecord) :
    (probePassGo intersects probeDist i ri recs).1.length = recs.length := by
  induction recs generalizing ri with
  | nil => rfl
  | cons r rest ih => simp [probePassGo, ih]

theorem probePassGo_get (intersects : Nat → Nat → Bool) (probeDist : Nat → Nat → ℚ)
    (i ri : Nat) (recs : List ReflRecord) (j : Nat) (h : j < recs.length) :
    (probePassGo intersects probeDist i ri recs).1.get
        ⟨j, by simpa [probePassGo_length] using h⟩
      = (injectProbeStep intersects probeDist i (ri + j) (recs.get ⟨j, h⟩)).1 := by
  induction recs generalizing ri j with
  | nil => simp at h
  | cons r rest ih =>
    cases j with
    | zero => simp [probePassGo]
    | succ n =>
      have hn : n < rest.length := Nat.lt_of_succ_lt_succ h
      have := ih (ri + 1) n hn
      simp only [probePassGo, List.get_cons_succ] at this ⊢
      rw [this]
      have : ri + 1 + n = ri + (n + 1) := by omega
      rw [this]

/-- The step relation claimed of one record under one probe pass step:
unchanged, or (re)assigned to the passing probe with the assignment only
replacing a previous one that was strictly farther. -/
theorem injectProbeStep_strictly_closer (intersects : Nat → Nat → Bool)
    (probeDist : Nat → Nat → ℚ) (i ri : Nat) (r : ReflRecord) :
    (injectProbeStep intersects probeDist i ri r).1 = r
    ∨ ((injectProbeStep intersects probeDist i ri r).1.reflectionProbeIndex = some i
      ∧ (injectProbeStep intersects probeDist i ri r).1.distanceFromReflectionProbe
          = probeDist i ri
      ∧ (r.reflectionProbeIndex = none
        ∨ probeDist i ri < r.distanceFromReflectionProbe)) := by
  by_cases hg : (r.receivesReflections && !r.isParticle && intersects i ri) = true
  · rcases hidx : r.reflectionProbeIndex with _ | k
    · right
      simp [injectProbeStep, hg, hidx]
    · by_cases hd : probeDist i ri < r.distanceFromReflectionProbe
      · right
        simp [injectProbeStep, hg, hidx, hd]
      · left
        simp [injectProbeStep, hg, hidx, hd]
  · left
    simp [injectProbeStep, hg]

theorem prepareReflectionProbesGo_entries (intersects : Nat → Nat → Bool)
    (probeDist : Nat → Nat → ℚ) (probes : List ReflProbe) (i : Nat)
    (recs : List ReflRecord) (e : ReflectionMapEntry) :
    e ∈ (prepareReflectionProbesGo intersects probeDist i probes recs).2
      ↔ ∃ k, ∃ hk : k < probes.length,
          e ∈ probeEntry (probes.get ⟨k, hk⟩) (i + k)
            (probePass intersects probeDist (i + k)
              (prepareReflectionProbesGo intersects probeDist i
                (probes.take k) recs).1).2 := by
  induction probes generalizing i recs with
  | nil =>
    simp [prepareReflectionProbesGo]
  | cons p rest ih =>
    simp only [prepareReflectionProbesGo, List.mem_append]
    constructor
    · intro h
      rcases h with h | h
      · exact ⟨0, by simp, by simpa [prepareReflectionProbesGo] using h⟩
      · rcases (ih (i + 1) _).mp h with ⟨k, hk, hmem⟩
        refine ⟨k + 1, by simpa using Nat.succ_lt_succ hk, ?_⟩
        have harith : i + 1 + k = i + (k + 1) := by omega
        simpa [List.take_succ_cons, prepareReflectionProbesGo, harith] using hmem
    · rintro ⟨k, hk, hmem⟩
      cases k with
      | zero =>
        left
        simpa [prepareReflectionProbesGo] using hmem
      | succ n =>
        right
        apply (ih (i + 1) _).mpr
        refine ⟨n, Nat.lt_of_succ_lt_succ hk, ?_⟩
        have harith : i + 1 + n = i + (n + 1) := by omega
        simpa [List.take_succ_cons, prepareReflectionProbesGo, harith] using hmem

theorem prepareReflectionProbes_entries (intersects : Nat → Nat → Bool)
    (probeDist : Nat → Nat → ℚ) (probes : List ReflProbe)
    (records : List ReflRecord) (e : ReflectionMapEntry) :
    e ∈ (prepareReflectionProbes intersects probeDist probes records).2
      ↔ ∃ k, ∃ hk : k < probes.length,
          e ∈ probeEntry (probes.get ⟨k, hk⟩) k
            (probePass intersects probeDist k
              (prepareReflectionProbesGo intersects probeDist 0
                (probes.take k) records).1).2 := by
  have h := prepareReflectionProbesGo_entries intersects probeDist probes 0 records e
  simpa [prepareReflectionProbes, Nat.zero_add] using h

/-- **C9 (amended).** After probe injection: a probe with an explicit baked
texture always registers a textured entry; a probe without a texture
registers a live entry exactly when its own injection pass assigned or
reassigned at least one record to it — a later, strictly closer probe may
still steal such a record, so the probe need not end the frame with any
record assigned to it. Each record carries at most one assigned probe, and
one injection step either leaves a record unchanged or assigns the passing
probe, the latter only when the record was unassigned or the new probe's
center is strictly closer. -/
theorem reflection_probe_registration (intersects : Nat → Nat → Bool)
    (probeDist : Nat → Nat → ℚ) (probes : List ReflProbe) (records : List ReflRecord) :
    (∀ k (hk : k < probes.length), (probes.get ⟨k, hk⟩).hasTexture = true →
      ReflectionMapEntry.textured k ∈ (prepareReflectionProbes intersects probeDist
        probes records).2)
    ∧ (∀ k (hk : k < probes.length), (probes.get ⟨k, hk⟩).hasTexture = false →
      (ReflectionMapEntry.live k ∈ (prepareReflectionProbes intersects probeDist
          probes records).2
        ↔ 0 < (probePass intersects probeDist k
            (prepareReflectionProbesGo intersects probeDist 0
              (probes.take k) records).1).2))
    ∧ (∀ i ri r, (injectProbeStep intersects probeDist i ri r).1 = r
        ∨ ((injectProbeStep intersects probeDist i ri r).1.reflectionProbeIndex = some i
          ∧ (r.reflectionProbeIndex = none
            ∨ probeDist i ri < r.distanceFromReflectionProbe))) := by
  refine ⟨?_, ?_, ?_⟩
  · intro k hk htex
    apply (prepareReflectionProbes_entries intersects probeDist probes records _).mpr
    refine ⟨k, hk, ?_⟩
    simp only [probeEntry]
    rw [if_pos htex]
    simp
  · intro k hk htex
    rw [prepareReflectionProbes_entries intersects probeDist probes records _]
    constructor
    · rintro ⟨k', hk', hmem⟩
      simp only [probeEntry] at hmem
      by_cases ht' : (probes.get ⟨k', hk'⟩).hasTexture = true
      · rw [if_pos ht'] at hmem
        simp at hmem
      · rw [if_neg ht'] at hmem
        by_cases hc : 0 < (probePass intersects probeDist k'
            (prepareReflectionProbesGo intersects probeDist 0 (probes.take k') records).1).2
        · rw [if_pos hc] at hmem
          simp only [List.mem_singleton, ReflectionMapEntry.live.injEq] at hmem
          subst hmem
          exact hc
        · rw [if_neg hc] at hmem
          simp at hmem
    · intro hc
      refine ⟨k, hk, ?_⟩
      simp only [probeEntry]
      rw [if_neg (by rw [htex]; simp), if_pos hc]
      simp
  · intro i ri r
    rcases injectProbeStep_strictly_closer intersects probeDist i ri r with h | ⟨h1, _, h3⟩
    · exact Or.inl h
    · exact Or.inr ⟨h1, h3⟩

/-- Witness for `reflection_probe_registration`: a textured probe registers
its textured entry even with no records at all. -/
theorem reflection_probe_registration_witness :
    ReflectionMapEntry.textured 0 ∈ (prepareReflectionProbes (fun _ _ => false)
      (fun _ _ => 0) [⟨true, 7⟩] []).2 :=
  (reflection_probe_registration (fun _ _ => false) (fun _ _ => 0) [⟨true, 7⟩] []).1
    0 (by simp) rfl

/-! ## Material resolution over mesh subsets

Embeds the subset loop head of `QSSGLayerRenderData::prepareModelForRender`
(qssglayerrenderdata.cpp:1086-1097):

    for (int idx = 0; idx < theMesh->subsets.size(); ++idx) {
        // If the materials list < size of subsets, then use the last material for the rest
        QSSGRenderGraphObject *theMaterialObject = nullptr;
        if (model.materials.isEmpty())
            break;
        if (idx + 1 > model.materials.size())
            theMaterialObject = model.materials.last();
        else
            theMaterialObject = model.materials.at(idx);
        if (theMaterialObject == nullptr)
            continue;
        ...emit one renderable record for (idx, material)...
    }

A material is modelled by an id (`Option ℕ`, `none` being a null entry in
the materials list). A produced record is the pair (subset index, material
id). -/

/-- Resolution of the material used for subset `idx`
(qssglayerrenderdata.cpp:1091-1094): the last material is reused when the
materials list is shorter than the subset list. -/
def subsetMaterialLookup (materials : List (Option ℕ)) (idx : ℕ) : Option ℕ :=
  if idx + 1 > materials.length then (materials.getLast?).getD none
  else (materials.get? idx).getD none

/-- The subset loop (qssglayerrenderdata.cpp:1086-1097), iterating `remaining`
more subsets starting at index `idx`: an empty materials list breaks out of
the loop, a null material entry skips just its subset. -/
def subsetLoop (materials : List (Option ℕ)) : ℕ → ℕ → List (ℕ × ℕ)
  | _, 0 => []
  | idx, Nat.succ n =>
    if materials.isEmpty then []
    else
      match subsetMaterialLookup materials idx with
      | none => subsetLoop materials (idx + 1) n
      | some m => (idx, m) :: subsetLoop materials (idx + 1) n

/-- The renderable records emitted for one model with `numSubsets` mesh
subsets (qssglayerrenderdata.cpp:1086-1411, reduced to which subsets emit a
record and with which material). -/
def prepareModelRecords (materials : List (Option ℕ)) (numSubsets : ℕ) : List (ℕ × ℕ) :=
  subsetLoop materials 0 numSubsets

theorem subsetLoop_mem (materials : List (Option ℕ)) (n idx j m : ℕ) :
    (j, m) ∈ subsetLoop materials idx n
      ↔ idx ≤ j ∧ j < idx + n ∧ subsetMaterialLookup materials j = some m := by
  induction n generalizing idx with
  | zero =>
    simp only [subsetLoop, List.not_mem_nil, false_iff]
    intro h
    omega
  | succ n ih =>
    by_cases he : materials.isEmpty
    · have hlk : ∀ k, subsetMaterialLookup materials k = none := by
        intro k
        have : materials = [] := List.isEmpty_iff.mp he
        subst this
        simp [subsetMaterialLookup]
      simp only [subsetLoop, if_pos he]
      simp only [List.not_mem_nil, false_iff]
      intro hcon
      rw [hlk j] at hcon
      exact absurd hcon.2.2 (by simp)
    · simp only [subsetLoop, if_neg he]
      rcases hlk : subsetMaterialLookup materials idx with _ | m0
      · rw [ih (idx + 1)]
        constructor
        · intro ⟨h1, h2, h3⟩
          exact ⟨by omega, by omega, h3⟩
        · intro ⟨h1, h2, h3⟩
          have hne : j ≠ idx := by
            intro heq
            rw [heq, hlk] at h3
            exact absurd h3 (by simp)
          exact ⟨by omega, by omega, h3⟩
      · simp only [List.mem_cons, ih (idx + 1), Prod.mk.injEq]
        constructor
        · intro h
          rcases h with ⟨rfl, rfl⟩ | ⟨h1, h2, h3⟩
          · exact ⟨le_refl _, by omega, hlk⟩
          · exact ⟨by omega, by omega, h3⟩
        · intro ⟨h1, h2, h3⟩
          by_cases hj : j = idx
          · subst hj
            rw [hlk] at h3
            left
            exact ⟨rfl, by injection h3 with h3'; exact h3'.symm⟩
          · right
            exact ⟨by omega, by omega, h3⟩

/-- **C10.** A model whose materials list is empty emits zero renderable
records, whatever the number of resolved mesh subsets; in general, a record
is emitted for subset `j` with material `m` exactly when `j` is a valid
subset index and the material lookup for `j` (the `idx`-th entry, or the
last entry when the list is shorter) yields a non-null material — so a null
entry at one subset index skips exactly that subset and no other. -/
theorem empty_materials_skip_model (materials : List (Option ℕ)) (numSubsets j m : ℕ) :
    (materials = [] → prepareModelRecords materials numSubsets = [])
    ∧ ((j, m) ∈ prepareModelRecords materials numSubsets
        ↔ j < numSubsets ∧ subsetMaterialLookup materials j = some m) := by
  constructor
  · intro h
    subst h
    cases numSubsets with
    | zero => rfl
    | succ n => simp [prepareModelRecords, subsetLoop]
  · rw [prepareModelRecords, subsetLoop_mem]
    constructor
    · intro ⟨_, h2, h3⟩
      exact ⟨by omega, h3⟩
    · intro ⟨h1, h2⟩
      exact ⟨Nat.zero_le _, by omega, h2⟩

/-- Witness for `empty_materials_skip_model`: a null entry at subset index 1
skips only that subset: subsets 0 and 2 emit records, subset 1 does not. -/
theorem empty_materials_skip_model_witness :
    prepareModelRecords [] 3 = []
    ∧ ((0, 5) ∈ prepareModelRecords [some 5, none, some 7] 3
        ∧ (2, 7) ∈ prepareModelRecords [some 5, none, some 7] 3
        ∧ ∀ m, (1, m) ∉ prepareModelRecords [some 5, none, some 7] 3) := by
  refine ⟨(empty_materials_skip_model [] 3 0 0).1 rfl, ?_, ?_, ?_⟩
  · exact (empty_materials_skip_model [some 5, none, some 7] 3 0 5).2.mpr
      ⟨by omega, rfl⟩
  · exact (empty_materials_skip_model [some 5, none, some 7] 3 2 7).2.mpr
      ⟨by omega, rfl⟩
  · intro m hm
    have h := (empty_materials_skip_model [some 5, none, some 7] 3 1 m).2.mp hm
    have : subsetMaterialLookup [some 5, none, some 7] 1 = none := rfl
    rw [this] at h
    exact absurd h.2 (by simp)

end QSSG
